import Mathlib

/-!
Shallow embedding of the batepapo-uol chat backend.

The repository holds three near-identical iterations of the server:
* variant 3: `src/unnamed/part_000` (hand-rolled validation, no joi);
* variant 1: `src/src/app.js` lines 1-188 (joi validation);
* variant 2: `src/src/app.js` lines 190-424 (joi + stripHtml + edit/delete).

State lives in two MongoDB collections, modelled as Lists kept in insertion
order.  Timestamps (`Date.now()`) are modelled as `Int`; the human-readable
`dayjs().format("HH:mm:ss")` string is threaded through as an opaque `String`
parameter.  A JavaScript number obtained from `Number(req.query.limit)` is
modelled as `Option Int`: `none` is `NaN`, `some l` a numeric value (numeric
values are modelled as integers).  HTTP outcomes are the literal status codes
the handlers send.
-/

/-- A document of the `participants` collection: `{ name, lastStatus }`. -/
structure Participant where
  name : String
  lastStatus : Int
deriving Repr, DecidableEq

/-- A document of the `messages` collection:
`{ from, to, text, type, time }`. -/
structure Message where
  «from» : String
  «to» : String
  text : String
  type : String
  time : String
deriving Repr, DecidableEq

/-- The database: both collections, each in insertion order. -/
structure DbState where
  participants : List Participant
  messages : List Message
deriving Repr, DecidableEq

/-- The system-generated join notice inserted by `POST /participants`:
`{ from: name, to: "Todos", text: "entra na sala...", type: "status", time }`. -/
def joinMessage (name currentTime : String) : Message :=
  { «from» := name, «to» := "Todos", text := "entra na sala...",
    type := "status", time := currentTime }

/-- `POST /participants` (variants 1 and 3, identical behavior): joi
`name: string().required()` rejects a missing or empty name with 422;
a `findOne({name})` hit yields 409 with no mutation; otherwise the
participant is inserted with `lastStatus = Date.now()` and the join
notice is appended, answering 201. -/
def postParticipants (name : String) (now : Int) (currentTime : String)
    (st : DbState) : DbState × Nat :=
  if name = "" then (st, 422)
  else if st.participants.any (fun p => p.name == name) then (st, 409)
  else ({ participants := st.participants ++ [{ name := name, lastStatus := now }],
          messages := st.messages ++ [joinMessage name currentTime] }, 201)

/-- Replace the `lastStatus` of the first participant named `user`
(Mongo `updateOne({name: user}, {$set: {lastStatus}})`). -/
def updateFirstStatus (user : String) (now : Int) :
    List Participant → List Participant
  | [] => []
  | p :: rest =>
    if p.name == user then { p with lastStatus := now } :: rest
    else p :: updateFirstStatus user now rest

/-- `POST /status` (all variants): joi `user: string().required()` (resp.
`!user` in variant 3) answers 404 on a missing/empty header; an unknown
name answers 404 with no mutation; otherwise `lastStatus` is refreshed to
`Date.now()` and the handler answers 200. -/
def postStatus (user : String) (now : Int) (st : DbState) : DbState × Nat :=
  if user = "" then (st, 404)
  else if st.participants.any (fun p => p.name == user) then
    ({ st with participants := updateFirstStatus user now st.participants }, 200)
  else (st, 404)

/-- The Mongo visibility filter of `GET /messages` in variants 1 and 2:
`$or` of `type ∈ {status, message}`, `type = private_message` with
(`from = user ∧ to ≠ user`) or (`from ≠ user ∧ to = user`), and
`from = "Todos"`. -/
def visibleTo (user : String) (m : Message) : Bool :=
  (m.type == "status" || m.type == "message")
    || (m.type == "private_message"
        && ((m.«from» == user && m.«to» != user)
            || (m.«from» != user && m.«to» == user)))
    || m.«from» == "Todos"

/-- The Mongo visibility filter of `GET /messages` in variant 3:
`$or` of `type ∈ {private_message, status, message}`,
`from ∈ {"Todos", user}`, and `to = user`. -/
def visibleToV3 (user : String) (m : Message) : Bool :=
  (m.type == "private_message" || m.type == "status" || m.type == "message")
    || (m.«from» == "Todos" || m.«from» == user)
    || m.«to» == user

/-- Outcome of `GET /messages`: 422 on an invalid limit, else 200 with a list. -/
inductive QueryResult where
  | invalid : QueryResult
  | ok : List Message → QueryResult
deriving Repr, DecidableEq

/-- `GET /messages` (variants 1 and 2): `Number(req.query.limit)` yielding
`NaN` (`none`) or a value `≤ 0` answers 422 before the collection is
consulted; otherwise the filtered messages are returned with
`.limit(limit)` applied. -/
def getMessages (user : String) (limit : Option Int) (msgs : List Message) :
    QueryResult :=
  match limit with
  | none => QueryResult.invalid
  | some l =>
    if l ≤ 0 then QueryResult.invalid
    else QueryResult.ok ((msgs.filter (visibleTo user)).take l.toNat)

/-- `GET /messages` (variant 3): same limit gate, variant-3 filter. -/
def getMessagesV3 (user : String) (limit : Option Int) (msgs : List Message) :
    QueryResult :=
  match limit with
  | none => QueryResult.invalid
  | some l =>
    if l ≤ 0 then QueryResult.invalid
    else QueryResult.ok ((msgs.filter (visibleToV3 user)).take l.toNat)

/-- The sweeper's staleness test: `lastStatus < Date.now() - 10000`. -/
def isStale (now : Int) (p : Participant) : Bool :=
  p.lastStatus < now - 10000

/-- The system-generated leave notice inserted by the sweeper:
`{ from: participant.name, to: "Todos", text: "sai da sala...",
type: "status", time }`. -/
def leaveMessage (name currentTime : String) : Message :=
  { «from» := name, «to» := "Todos", text := "sai da sala...",
    type := "status", time := currentTime }

/-- Mongo `deleteOne` on the participant found by the sweeper: removes the
first occurrence of that document. -/
def removeFirst (p : Participant) : List Participant → List Participant
  | [] => []
  | q :: rest => if q = p then rest else q :: removeFirst p rest

/-- The sweeper's eviction loop over the snapshot of stale participants.
`failDel p` (resp. `failIns p`) models the `deleteOne` (resp. `insertOne`)
for `p` throwing; the exception escapes the `for` loop to the `catch`
around the whole tick, which logs it, so the remaining iterations do not
run. -/
def sweepGo (failDel failIns : Participant → Bool) (currentTime : String) :
    List Participant → DbState → DbState
  | [], st => st
  | p :: rest, st =>
    if failDel p then st
    else
      let st1 : DbState := { st with participants := removeFirst p st.participants }
      if failIns p then st1
      else sweepGo failDel failIns currentTime rest
        { st1 with messages := st1.messages ++ [leaveMessage p.name currentTime] }

/-- Failure model of a tick where every storage operation succeeds. -/
def noFailure : Participant → Bool := fun _ => false

/-- One tick of the `setInterval` sweeper (all variants), with a failure
model for the per-participant storage operations: fetch the participants
with `lastStatus < Date.now() - 10000`, then for each delete it and
append its leave notice. -/
def sweepFallible (failDel failIns : Participant → Bool) (now : Int)
    (currentTime : String) (st : DbState) : DbState :=
  sweepGo failDel failIns currentTime (st.participants.filter (isStale now)) st

/-- One tick of the sweeper where every storage operation succeeds. -/
def sweep (now : Int) (currentTime : String) (st : DbState) : DbState :=
  sweepFallible noFailure noFailure now currentTime st

/-- The object handed to `messageSchema.validate`: the four declared keys
(each possibly absent) plus whatever keys the object carries that the
schema does not declare. -/
structure JoiMessageInput where
  user : Option String
  «to» : Option String
  text : Option String
  type : Option String
  unknownKeys : List String
deriving Repr, DecidableEq

/-- joi `string().required()`: fails on an absent key and on the empty
string. -/
def requiredString : Option String → Bool
  | some s => s != ""
  | none => false

/-- `messageSchema` of variants 1 and 2: `user`, `to`, `text` are required
strings, `type` is restricted to `"message"` or `"private_message"` by
`.allow(...).only()`, and — joi's default — any key the schema does not
declare makes validation fail. -/
def joiMessageValidate (o : JoiMessageInput) : Bool :=
  requiredString o.user && requiredString o.«to» && requiredString o.text
    && (match o.type with
        | some t => t == "message" || t == "private_message"
        | none => false)
    && o.unknownKeys.isEmpty

/-- `POST /messages` (variants 1 and 2; variant 3 differs only in not
checking `user` for emptiness before the directory lookup): schema
failure answers 422; an unregistered sender answers 422; otherwise the
message is stored as given, stamped with the current time, answering 201. -/
def postMessages (user «to» text type currentTime : String) (st : DbState) :
    DbState × Nat :=
  if !(joiMessageValidate
      { user := some user, «to» := some «to», text := some text,
        type := some type, unknownKeys := [] }) then (st, 422)
  else if !(st.participants.any (fun p => p.name == user)) then (st, 422)
  else ({ st with messages := st.messages ++
          [{ «from» := user, «to» := «to», text := text, type := type,
             time := currentTime }] }, 201)

/-- The JSON body of `PUT /messages/:id`: the keys the route reads. -/
structure EditBody where
  user : Option String
  «to» : Option String
  text : Option String
  type : Option String
deriving Repr, DecidableEq

/-- The `messages` collection with its `_id`s, for the routes of variant 2
that address a message by id. -/
structure EditState where
  participants : List Participant
  messages : List (Nat × Message)
deriving Repr, DecidableEq

/-- Mongo `updateOne({_id: id}, {$set: req.body})`: overwrite the fields the
body carries on the matched message. -/
def applyEdit (body : EditBody) (m : Message) : Message :=
  { m with «to» := body.«to».getD m.«to», text := body.text.getD m.text,
           type := body.type.getD m.type }

/-- Apply the edit to the message with the given `_id`. -/
def updateMessageById (id : Nat) (body : EditBody) :
    List (Nat × Message) → List (Nat × Message)
  | [] => []
  | (i, m) :: rest =>
    if i = id then (i, applyEdit body m) :: rest
    else (i, m) :: updateMessageById id body rest

/-- `PUT /messages/:id` (variant 2).  The route validates
`{...req.body, from: user}` against `messageSchema`: the constructed
object carries the key `from`, which the schema does not declare, and
carries `user` only if the client put one in the body.  On validation
failure it answers 422; then an unregistered caller answers 422, a
missing id 404, a non-owner 401, and otherwise the message is updated
with 200. -/
def putMessage (user : String) (id : Nat) (body : EditBody) (st : EditState) :
    EditState × Nat :=
  if !(joiMessageValidate
      { user := body.user, «to» := body.«to», text := body.text,
        type := body.type, unknownKeys := ["from"] }) then (st, 422)
  else if !(st.participants.any (fun p => p.name == user)) then (st, 422)
  else
    match st.messages.find? (fun im => im.1 == id) with
    | none => (st, 404)
    | some (_, m) =>
      if m.«from» != user then (st, 401)
      else ({ st with messages := updateMessageById id body st.messages }, 200)

/-! ## Helper lemmas about the sweeper's eviction loop -/

theorem removeFirst_append (p : Participant) (pre l : List Participant)
    (h : p ∉ pre) : removeFirst p (pre ++ p :: l) = pre ++ l := by
  induction pre with
  | nil => simp [removeFirst]
  | cons a pre ih =>
    have hne : ¬(a = p) := fun heq => h (heq ▸ List.mem_cons_self a pre)
    have hmem : p ∉ pre := fun hm => h (List.mem_cons_of_mem a hm)
    simp [removeFirst, hne, ih hmem]

theorem sweepGo_noFail (t : String) (now : Int) :
    ∀ (l pre : List Participant) (ms : List Message),
      (∀ q ∈ pre, isStale now q = false) →
      sweepGo noFailure noFailure t (l.filter (isStale now)) ⟨pre ++ l, ms⟩
        = ⟨pre ++ l.filter (fun p => !(isStale now p)),
           ms ++ (l.filter (isStale now)).map (fun p => leaveMessage p.name t)⟩ := by
  intro l
  induction l with
  | nil => intro pre ms _; simp [sweepGo]
  | cons a l ih =>
    intro pre ms hpre
    by_cases ha : isStale now a = true
    · have hnotmem : a ∉ pre := fun hm => by
        have := hpre a hm
        rw [ha] at this
        exact Bool.true_eq_false.mp this
      rw [List.filter_cons_of_pos ha]
      simp only [sweepGo, noFailure, Bool.false_eq_true, if_false]
      rw [removeFirst_append a pre l hnotmem]
      rw [ih pre (ms ++ [leaveMessage a.name t]) hpre]
      simp [List.filter_cons, ha, List.append_assoc]
    · have ha' : isStale now a = false := Bool.not_eq_true _ ▸ eq_false_of_ne_true ha
      rw [List.filter_cons_of_neg (by simp [ha'])]
      have hpre' : ∀ q ∈ pre ++ [a], isStale now q = false := by
        intro q hq
        rcases List.mem_append.mp hq with hq | hq
        · exact hpre q hq
        · rw [List.mem_singleton.mp hq]; exact ha'
      have := ih (pre ++ [a]) ms hpre'
      rw [List.append_assoc] at this
      simp only [List.singleton_append] at this
      rw [this]
      simp [List.filter_cons, ha', List.append_assoc]

theorem mem_removeFirst_of_ne (q p : Participant) (h : q ≠ p) :
    ∀ l : List Participant, q ∈ l → q ∈ removeFirst p l := by
  intro l
  induction l with
  | nil => intro hq; cases hq
  | cons a l ih =>
    intro hq
    by_cases hap : a = p
    · rw [removeFirst, if_pos hap]
      rcases List.mem_cons.mp hq with hqa | hql
      · exact absurd (hqa.trans hap) h
      · exact hql
    · rw [removeFirst, if_neg hap]
      rcases List.mem_cons.mp hq with hqa | hql
      · exact hqa ▸ List.mem_cons_self a _
      · exact List.mem_cons_of_mem a (ih hql)

theorem sweepGo_preserves_untouched (failDel failIns : Participant → Bool)
    (t : String) :
    ∀ (todo : List Participant) (st : DbState) (q : Participant),
      q ∈ st.participants → (∀ r ∈ todo, q ≠ r) →
      q ∈ (sweepGo failDel failIns t todo st).participants := by
  intro todo
  induction todo with
  | nil => intro st q hq _; simpa [sweepGo] using hq
  | cons p rest ih =>
    intro st q hq hr
    have hqp : q ≠ p := hr p (List.mem_cons_self p rest)
    by_cases h1 : failDel p = true
    · simpa [sweepGo, h1] using hq
    · by_cases h2 : failIns p = true
      · simp only [sweepGo, h1, h2, if_false, if_true, Bool.false_eq_true]
        exact mem_removeFirst_of_ne q p hqp st.participants hq
      · simp only [sweepGo, h1, h2, if_false, Bool.false_eq_true]
        exact ih _ q (mem_removeFirst_of_ne q p hqp st.participants hq)
          (fun r hrr => hr r (List.mem_cons_of_mem p hrr))

theorem sweepGo_stop (failDel failIns : Participant → Bool) (t : String) :
    ∀ (l1 : List Participant) (p : Participant) (l2 : List Participant)
      (st : DbState),
      (∀ q ∈ l1, failDel q = false ∧ failIns q = false) →
      (failDel p = true ∨ failIns p = true) →
      sweepGo failDel failIns t (l1 ++ p :: l2) st
        = sweepGo failDel failIns t (l1 ++ [p]) st := by
  intro l1
  induction l1 with
  | nil =>
    intro p l2 st _ hp
    by_cases hd : failDel p = true
    · simp [sweepGo, hd]
    · have hi : failIns p = true := hp.resolve_left hd
      simp [sweepGo, hd, hi]
  | cons a l1 ih =>
    intro p l2 st h1 hp
    have ha := h1 a (List.mem_cons_self a l1)
    simp only [List.cons_append, sweepGo, ha.1, ha.2, Bool.false_eq_true,
      if_false]
    exact ih p l2 _ (fun q hq => h1 q (List.mem_cons_of_mem a hq)) hp

/-! ## Claim theorems -/

/-- C2: one sweep pass removes from the directory exactly the participants
whose `lastStatus` is strictly below `now - 10000` (the 10-time-unit
staleness threshold), leaves every other participant registered, and for
each removed participant appends exactly one broadcast-status leave notice
`{from: participant.name, to: "Todos", text: "sai da sala...",
type: "status"}`, in eviction order. -/
theorem sweep_pass_spec (now : Int) (t : String) (st : DbState) :
    (sweep now t st).participants
        = st.participants.filter (fun p => !(isStale now p))
    ∧ (sweep now t st).messages
        = st.messages
            ++ (st.participants.filter (isStale now)).map
                (fun p => leaveMessage p.name t)
    ∧ ∀ p : Participant,
        p ∈ (sweep now t st).participants
          ↔ p ∈ st.participants ∧ ¬(p.lastStatus < now - 10000) := by
  have h := sweepGo_noFail t now st.participants [] st.messages (by simp)
  simp only [List.nil_append] at h
  have h1 : (sweep now t st).participants
      = st.participants.filter (fun p => !(isStale now p)) := by
    have := congrArg DbState.participants h
    simpa [sweep, sweepFallible] using this
  have h2 : (sweep now t st).messages
      = st.messages
          ++ (st.participants.filter (isStale now)).map
              (fun p => leaveMessage p.name t) := by
    have := congrArg DbState.messages h
    simpa [sweep, sweepFallible] using this
  refine ⟨h1, h2, ?_⟩
  intro p
  rw [h1, List.mem_filter]
  simp [isStale]

/-- C2 witness: the spec's own example — "dave" joined at time 0 is swept
at time 16000, and exactly his leave notice is appended. -/
theorem sweep_pass_spec_witness :
    (sweep 16000 "00:00:16" ⟨[⟨"dave", 0⟩], []⟩).participants = []
    ∧ (sweep 16000 "00:00:16" ⟨[⟨"dave", 0⟩], []⟩).messages
        = [leaveMessage "dave" "00:00:16"] := by
  refine ⟨?_, ?_⟩
  · rw [(sweep_pass_spec 16000 "00:00:16" ⟨[⟨"dave", 0⟩], []⟩).1]
    decide
  · rw [(sweep_pass_spec 16000 "00:00:16" ⟨[⟨"dave", 0⟩], []⟩).2.1]
    decide

/-- C3 counterexample: with participants alice and bob both stale at
`now = 20000`, a failing `deleteOne` for alice aborts the whole pass: bob
is still registered afterwards and no leave notice was appended, although
the claim demands that bob still be processed. -/
theorem sweeper_abort_counterexample :
    (sweepFallible (fun p => p.name == "alice") noFailure 20000 "00:00:20"
        ⟨[⟨"alice", 0⟩, ⟨"bob", 0⟩], []⟩)
      = ⟨[⟨"alice", 0⟩, ⟨"bob", 0⟩], []⟩
    ∧ isStale 20000 ⟨"bob", 0⟩ = true := by decide

/-- C3 amended: the sweeper's `try/catch` wraps the whole eviction loop,
so the first stale participant whose `deleteOne` or `insertOne` fails ends
the pass: the tick behaves as if the remaining stale participants were not
in the snapshot, and every one of them stays registered. -/
theorem sweepFallible_stops_at_failure (failDel failIns : Participant → Bool)
    (now : Int) (t : String) (st : DbState)
    (l1 : List Participant) (p : Participant) (l2 : List Participant)
    (hsplit : st.participants.filter (isStale now) = l1 ++ p :: l2)
    (h1 : ∀ q ∈ l1, failDel q = false ∧ failIns q = false)
    (hp : failDel p = true ∨ failIns p = true) :
    sweepFallible failDel failIns now t st
        = sweepGo failDel failIns t (l1 ++ [p]) st
    ∧ ∀ q ∈ l2, q ∉ l1 → q ≠ p →
        q ∈ (sweepFallible failDel failIns now t st).participants := by
  have hmain : sweepFallible failDel failIns now t st
      = sweepGo failDel failIns t (l1 ++ [p]) st := by
    unfold sweepFallible
    rw [hsplit]
    exact sweepGo_stop failDel failIns t l1 p l2 st h1 hp
  refine ⟨hmain, ?_⟩
  intro q hq hql1 hqp
  have hqst : q ∈ st.participants := by
    have hmem : q ∈ st.participants.filter (isStale now) := by
      rw [hsplit]
      exact List.mem_append_right l1 (List.mem_cons_of_mem p hq)
    exact (List.mem_filter.mp hmem).1
  rw [hmain]
  refine sweepGo_preserves_untouched failDel failIns t (l1 ++ [p]) st q hqst ?_
  intro r hr
  rcases List.mem_append.mp hr with hr | hr
  · exact fun heq => hql1 (heq ▸ hr)
  · exact List.mem_singleton.mp hr ▸ hqp

/-- C3 witness: concrete run of the amended theorem — alice's delete fails,
bob (stale, later in the snapshot) stays registered. -/
theorem sweepFallible_stops_at_failure_witness :
    ([⟨"alice", 0⟩, ⟨"bob", 0⟩] : List Participant).filter (isStale 20000)
        = [] ++ (⟨"alice", 0⟩ : Participant) :: [⟨"bob", 0⟩]
    ∧ (⟨"bob", 0⟩ : Participant)
        ∈ (sweepFallible (fun p => p.name == "alice") noFailure 20000
            "00:00:20" ⟨[⟨"alice", 0⟩, ⟨"bob", 0⟩], []⟩).participants :=
  ⟨by decide,
    (sweepFallible_stops_at_failure (fun p => p.name == "alice") noFailure
        20000 "00:00:20" ⟨[⟨"alice", 0⟩, ⟨"bob", 0⟩], []⟩
        [] ⟨"alice", 0⟩ [⟨"bob", 0⟩] (by decide) (by simp)
        (Or.inl (by decide))).2
      ⟨"bob", 0⟩ (by decide) (by decide) (by decide)⟩

/-- The directory in which exactly the participants named `user` carry the
refreshed `lastStatus` and every other record is untouched — the shape the
claim about `POST /status` predicts for the resulting directory. -/
def refreshLastStatus (user : String) (now : Int) (l : List Participant) :
    List Participant :=
  l.map fun q => if q.name = user then { q with lastStatus := now } else q

theorem updateFirstStatus_eq_map (user : String) (now : Int) :
    ∀ l : List Participant, (l.map Participant.name).Nodup →
      updateFirstStatus user now l = refreshLastStatus user now l := by
  intro l
  unfold refreshLastStatus
  induction l with
  | nil => intro _; rfl
  | cons p rest ih =>
    intro hnd
    rw [List.map_cons, List.nodup_cons] at hnd
    by_cases hp : p.name = user
    · have hrest : ∀ q ∈ rest, q.name ≠ user := by
        intro q hq heq
        exact hnd.1 (hp ▸ heq ▸ List.mem_map_of_mem Participant.name hq)
      have hmapid : rest.map (fun q =>
          if q.name = user then { q with lastStatus := now } else q) = rest := by
        conv_rhs => rw [← List.map_id rest]
        refine List.map_congr_left ?_
        intro q hq
        simp [hrest q hq]
      have hpb : (p.name == user) = true := by simp [hp]
      simp only [updateFirstStatus, hpb, if_true, List.map_cons, if_pos hp,
        hmapid]
    · have hpb : (p.name == user) = false := by simp [hp]
      simp only [updateFirstStatus, hpb, Bool.false_eq_true, if_false,
        List.map_cons, if_neg hp, ih hnd.2]

/-- C4: for a non-empty name not yet in the directory, the first
`POST /participants` answers 201 and registers the participant with
`lastStatus = now`; a second `POST /participants` with the same name,
while still registered, answers 409 and leaves the database unchanged. -/
theorem join_then_join_conflicts (name : String) (now now2 : Int)
    (t t2 : String) (st : DbState) (hname : name ≠ "")
    (habs : ∀ p ∈ st.participants, p.name ≠ name) :
    (postParticipants name now t st).2 = 201
    ∧ (postParticipants name now t st).1.participants
        = st.participants ++ [{ name := name, lastStatus := now }]
    ∧ postParticipants name now2 t2 (postParticipants name now t st).1
        = ((postParticipants name now t st).1, 409) := by
  have hany : st.participants.any (fun p => p.name == name) = false := by
    rw [List.any_eq_false]
    intro p hp
    simpa using habs p hp
  have hfst : postParticipants name now t st
      = ({ participants := st.participants ++ [{ name := name, lastStatus := now }],
           messages := st.messages ++ [joinMessage name t] }, 201) := by
    simp [postParticipants, hname, hany]
  refine ⟨by rw [hfst], by rw [hfst], ?_⟩
  rw [hfst]
  simp [postParticipants, hname, List.any_append]

/-- C4 witness: joining "alice" on an empty directory answers 201 and a
repeat join answers 409 without mutation. -/
theorem join_then_join_conflicts_witness :
    (postParticipants "alice" 5 "09:00:00" ⟨[], []⟩).2 = 201
    ∧ (postParticipants "alice" 5 "09:00:00" ⟨[], []⟩).1.participants
        = [] ++ [{ name := "alice", lastStatus := 5 }]
    ∧ postParticipants "alice" 6 "09:00:07"
          (postParticipants "alice" 5 "09:00:00" ⟨[], []⟩).1
        = ((postParticipants "alice" 5 "09:00:00" ⟨[], []⟩).1, 409) :=
  join_then_join_conflicts "alice" 5 6 "09:00:00" "09:00:07" ⟨[], []⟩
    (by decide) (by simp)

/-- C5: `POST /status` for a name absent from the directory answers 404 and
changes nothing; for a registered (hence non-empty) name it answers 200 and
sets exactly that participant's `lastStatus` to the current time. -/
theorem heartbeat_spec (user : String) (now : Int) (st : DbState) :
    ((∀ p ∈ st.participants, p.name ≠ user) →
        postStatus user now st = (st, 404))
    ∧ (user ≠ "" → (st.participants.map Participant.name).Nodup →
        (∃ p ∈ st.participants, p.name = user) →
        postStatus user now st
          = ({ st with
                participants := refreshLastStatus user now st.participants },
             200)) := by
  constructor
  · intro habs
    have hany : st.participants.any (fun p => p.name == user) = false := by
      rw [List.any_eq_false]
      intro p hp
      simpa using habs p hp
    by_cases hu : user = ""
    · simp [postStatus, hu]
    · simp [postStatus, hu, hany]
  · intro hu hnd hex
    obtain ⟨p, hp, hpname⟩ := hex
    have hany : st.participants.any (fun q => q.name == user) = true := by
      rw [List.any_eq_true]
      exact ⟨p, hp, by simp [hpname]⟩
    simp [postStatus, hu, hany, updateFirstStatus_eq_map user now st.participants hnd]

/-- C5 witness: a heartbeat for the unknown "carol" answers 404 unchanged;
a heartbeat for the registered "dave" answers 200 and refreshes his
`lastStatus` to 42. -/
theorem heartbeat_spec_witness :
    postStatus "carol" 42 ⟨[⟨"dave", 0⟩], []⟩ = (⟨[⟨"dave", 0⟩], []⟩, 404)
    ∧ postStatus "dave" 42 ⟨[⟨"dave", 0⟩], []⟩
        = (⟨[⟨"dave", 42⟩], []⟩, 200) :=
  ⟨(heartbeat_spec "carol" 42 ⟨[⟨"dave", 0⟩], []⟩).1 (by decide),
    by
      have h := (heartbeat_spec "dave" 42 ⟨[⟨"dave", 0⟩], []⟩).2 (by decide)
        (by decide) ⟨⟨"dave", 0⟩, List.mem_singleton.mpr rfl, rfl⟩
      simpa using h⟩

/-- C7: `GET /messages` with a `NaN` or non-positive limit answers 422 —
a constant outcome, independent of the message store, which is therefore
never consulted — and with any positive numeric limit it proceeds to
return the filtered, truncated list. -/
theorem query_limit_gate (user : String) (limit : Option Int)
    (msgs : List Message) :
    ((limit = none ∨ ∃ l : Int, limit = some l ∧ l ≤ 0) →
        getMessages user limit msgs = QueryResult.invalid)
    ∧ (∀ l : Int, limit = some l → 0 < l →
        getMessages user limit msgs
          = QueryResult.ok ((msgs.filter (visibleTo user)).take l.toNat)) := by
  constructor
  · rintro (h | ⟨l, hl, hle⟩)
    · rw [h]; rfl
    · rw [hl]
      simp [getMessages, hle]
  · intro l hl hpos
    rw [hl]
    simp [getMessages, not_le.mpr hpos]

/-- C7 witness: limit 0 is rejected with 422; limit 3 proceeds. -/
theorem query_limit_gate_witness :
    getMessages "alice" (some 0) [joinMessage "bob" "08:00:00"]
        = QueryResult.invalid
    ∧ getMessages "alice" (some 3) [joinMessage "bob" "08:00:00"]
        = QueryResult.ok
            (([joinMessage "bob" "08:00:00"].filter (visibleTo "alice")).take
              (3 : Int).toNat) :=
  ⟨(query_limit_gate "alice" (some 0) [joinMessage "bob" "08:00:00"]).1
      (Or.inr ⟨0, rfl, le_refl 0⟩),
    (query_limit_gate "alice" (some 3) [joinMessage "bob" "08:00:00"]).2 3 rfl
      (by decide)⟩

/-- C9: a successful `POST /participants` appends exactly one
broadcast-status notice `{from: name, to: "Todos", text: "entra na sala...",
type: "status"}` to the message board, and a join failing validation (422)
or with a name conflict (409) appends nothing and leaves the whole database
unchanged. -/
theorem join_appends_exactly_one_notice (name : String) (now : Int)
    (t : String) (st : DbState) :
    ((name ≠ "" ∧ ∀ p ∈ st.participants, p.name ≠ name) →
        (postParticipants name now t st).2 = 201
        ∧ (postParticipants name now t st).1.messages
            = st.messages ++ [joinMessage name t])
    ∧ ((name = "" ∨ ∃ p ∈ st.participants, p.name = name) →
        (postParticipants name now t st).1 = st
        ∧ ((postParticipants name now t st).2 = 422
            ∨ (postParticipants name now t st).2 = 409)) := by
  constructor
  · rintro ⟨hname, habs⟩
    have hany : st.participants.any (fun p => p.name == name) = false := by
      rw [List.any_eq_false]
      intro p hp
      simpa using habs p hp
    constructor <;> simp [postParticipants, hname, hany]
  · rintro (hname | ⟨p, hp, hpname⟩)
    · simp [postParticipants, hname]
    · by_cases hname : name = ""
      · simp [postParticipants, hname]
      · have hany : st.participants.any (fun q => q.name == name) = true := by
          rw [List.any_eq_true]
          exact ⟨p, hp, by simp [hpname]⟩
        simp [postParticipants, hname, hany]

/-- C9 witness: joining "erin" on an empty database appends exactly her
join notice. -/
theorem join_appends_exactly_one_notice_witness :
    (postParticipants "erin" 7 "11:00:00" ⟨[], []⟩).2 = 201
    ∧ (postParticipants "erin" 7 "11:00:00" ⟨[], []⟩).1.messages
        = [] ++ [joinMessage "erin" "11:00:00"] :=
  (join_appends_exactly_one_notice "erin" 7 "11:00:00" ⟨[], []⟩).1
    ⟨by decide, by simp⟩

/-- C1: evaluation of variant 3's `GET /messages` at the failing input —
with the store holding one direct message from "alice" to "bob", the query
for viewer "carol" (neither sender nor recipient) and limit 10 returns that
direct message, because the variant-3 filter's first `$or` clause matches
every message whose type is `private_message`, `status`, or `message`. -/
theorem queryV3_returns_foreign_dm :
    getMessagesV3 "carol" (some 10)
        [{ «from» := "alice", «to» := "bob", text := "secret",
           type := "private_message", time := "10:00:01" }]
      = QueryResult.ok
          [{ «from» := "alice", «to» := "bob", text := "secret",
             type := "private_message", time := "10:00:01" }]
    ∧ ("carol" : String) ≠ "alice" ∧ ("carol" : String) ≠ "bob" := by decide

/-- C6: `PUT /messages/:id` can never reach its 200, 404, or 401 branches:
the object it validates, `{...req.body, from: user}`, always carries the
key `from`, which `messageSchema` does not declare, so joi validation fails
and the route answers 422 on every request, leaving the store unchanged. -/
theorem putMessage_always_invalid (user : String) (id : Nat)
    (body : EditBody) (st : EditState) :
    putMessage user id body st = (st, 422) := by
  have hval : joiMessageValidate
      { user := body.user, «to» := body.«to», text := body.text,
        type := body.type, unknownKeys := ["from"] } = false := by
    simp [joiMessageValidate]
  simp [putMessage, hval]

/-- C8 counterexample: with "alice" registered, `POST /messages` accepts
and stores a `private_message` addressed to the broadcast target "Todos",
answering 201 — the claimed invariant fails on this reachable store. -/
theorem post_private_to_broadcast_counterexample :
    postMessages "alice" "Todos" "segredo" "private_message" "10:00:02"
        ⟨[⟨"alice", 0⟩], []⟩
      = (⟨[⟨"alice", 0⟩],
          [{ «from» := "alice", «to» := "Todos", text := "segredo",
             type := "private_message", time := "10:00:02" }]⟩, 201) := by
  decide

/-- C8 amended: the handlers themselves guarantee the broadcast shape only
for system-generated messages — every message that `POST /participants` or
the sweeper adds to the board has `to = "Todos"` and `type = "status"` —
while `Post` performs no check relating `type` to `to`, so a stored
`private_message` may be addressed to the broadcast target. -/
theorem system_messages_are_status_broadcasts (name : String) (now : Int)
    (t : String) (st : DbState) :
    (∀ m ∈ (postParticipants name now t st).1.messages,
        m ∈ st.messages ∨ (m.«to» = "Todos" ∧ m.type = "status"))
    ∧ (∀ m ∈ (sweep now t st).messages,
        m ∈ st.messages ∨ (m.«to» = "Todos" ∧ m.type = "status")) := by
  constructor
  · intro m hm
    by_cases hname : name = ""
    · left
      simpa [postParticipants, hname] using hm
    · by_cases hany : st.participants.any (fun p => p.name == name) = true
      · left
        simpa [postParticipants, hname, hany] using hm
      · have hany' : st.participants.any (fun p => p.name == name) = false :=
          eq_false_of_ne_true hany
        have hm' : m ∈ st.messages ++ [joinMessage name t] := by
          simpa [postParticipants, hname, hany'] using hm
        rcases List.mem_append.mp hm' with h | h
        · exact Or.inl h
        · right
          rw [List.mem_singleton.mp h]
          exact ⟨rfl, rfl⟩
  · intro m hm
    have h2 := sweepGo_noFail t now st.participants [] st.messages (by simp)
    simp only [List.nil_append] at h2
    have hmsgs : (sweep now t st).messages
        = st.messages
            ++ (st.participants.filter (isStale now)).map
                (fun p => leaveMessage p.name t) := by
      have := congrArg DbState.messages h2
      simpa [sweep, sweepFallible] using this
    rw [hmsgs] at hm
    rcases List.mem_append.mp hm with h | h
    · exact Or.inl h
    · right
      obtain ⟨p, _, hp⟩ := List.mem_map.mp h
      rw [← hp]
      exact ⟨rfl, rfl⟩

/-- C8 witness: the join notice inserted for "frank" on an empty database
is a status broadcast. -/
theorem system_messages_are_status_broadcasts_witness :
    joinMessage "frank" "12:00:00"
        ∈ (postParticipants "frank" 3 "12:00:00" ⟨[], []⟩).1.messages
    ∧ (joinMessage "frank" "12:00:00" ∈ ([] : List Message)
        ∨ ((joinMessage "frank" "12:00:00").«to» = "Todos"
            ∧ (joinMessage "frank" "12:00:00").type = "status")) :=
  ⟨by decide,
    (system_messages_are_status_broadcasts "frank" 3 "12:00:00" ⟨[], []⟩).1
      (joinMessage "frank" "12:00:00") (by decide)⟩

/-- C10 counterexample: for the viewer "Todos", a stored `private_message`
with `from = to = "Todos"` is returned by the variant 1/2 query — the
filter's `{from: "Todos"}` clause matches it — so a self-addressed direct
message is not invisible to every author. -/
theorem self_dm_of_todos_visible_counterexample :
    getMessages "Todos" (some 10)
        [{ «from» := "Todos", «to» := "Todos", text := "oi",
           type := "private_message", time := "10:00:03" }]
      = QueryResult.ok
          [{ «from» := "Todos", «to» := "Todos", text := "oi",
             type := "private_message", time := "10:00:03" }] := by decide

/-- C10 amended: for every viewer other than "Todos", a stored
`private_message` whose `from` and `to` both equal the viewer is excluded
from any successful variant 1/2 query the viewer makes. -/
theorem self_dm_invisible (user : String) (huser : user ≠ "Todos")
    (limit : Option Int) (msgs out : List Message) (m : Message)
    (hfrom : m.«from» = user) (hto : m.«to» = user)
    (htype : m.type = "private_message")
    (hq : getMessages user limit msgs = QueryResult.ok out) :
    m ∉ out := by
  intro hmem
  cases limit with
  | none => simp [getMessages] at hq
  | some l =>
    by_cases hl : l ≤ 0
    · simp [getMessages, hl] at hq
    · simp only [getMessages, if_neg hl] at hq
      have hout : (msgs.filter (visibleTo user)).take l.toNat = out :=
        QueryResult.ok.inj hq
      rw [← hout] at hmem
      have hf := List.mem_filter.mp (List.take_subset _ _ hmem)
      have hv : visibleTo user m = true := hf.2
      unfold visibleTo at hv
      rw [hfrom, hto, htype] at hv
      have e1 : (("private_message" : String) == "status") = false := by decide
      have e2 : (("private_message" : String) == "message") = false := by decide
      simp [e1, e2] at hv
      exact huser hv

/-- C10 witness: carol's self-addressed direct message is absent from the
result of her query. -/
theorem self_dm_invisible_witness :
    ("carol" : String) ≠ "Todos"
    ∧ ({ «from» := "carol", «to» := "carol", text := "x",
         type := "private_message", time := "10:00:04" } : Message)
        ∉ ([] : List Message) :=
  ⟨by decide,
    self_dm_invisible "carol" (by decide) (some 5)
      [{ «from» := "carol", «to» := "carol", text := "x",
         type := "private_message", time := "10:00:04" }] []
      { «from» := "carol", «to» := "carol", text := "x",
        type := "private_message", time := "10:00:04" }
      rfl rfl rfl (by decide)⟩
